import Mathlib

/-!
Verification of the tabular preprocessing / model-selection pipeline of the
`student_spartial_intelligence` repository (`src/data_prep.py`,
`src/model_train.py`) against its natural-language specification.

The pandas/sklearn data model is shallowly embedded:

* a dataframe column is either of numeric dtype (rational values, `none` = NaN)
  or of object dtype (string values, `none` = NaN);
* a dataframe (`DF`) is an ordered association list of named columns;
* floating-point numbers are idealised as rationals (`ℚ`); pandas division by
  zero yields `inf`, which has no rational counterpart — the claims below only
  ever reason about whether a denominator *is* zero, never about the quotient
  at a zero denominator.

Each Python operation used by the claims is translated into a Lean function
whose doc comment names the source lines it embeds.
-/

/-- A pandas column: numeric dtype (`float`/`int`, `none` = NaN) or object
dtype (strings, `none` = NaN).  `src/data_prep.py` classifies columns into
exactly these two kinds (`classify_features`, lines 105-106). -/
inductive Col where
  | numeric (vals : List (Option ℚ))
  | object (vals : List (Option String))
deriving DecidableEq, Repr

/-- A dataframe: an ordered list of named columns. -/
abbrev DF := List (String × Col)

/-- Number of entries of a column. -/
def Col.size : Col → Nat
  | .numeric vs => vs.length
  | .object vs => vs.length

/-- Whether the column has numeric dtype (`select_dtypes(include=[np.number])`). -/
def Col.isNumeric : Col → Bool
  | .numeric _ => true
  | .object _ => false

/-- Whether the column has object dtype (`select_dtypes(include=['object'])`). -/
def Col.isObject : Col → Bool
  | .numeric _ => false
  | .object _ => true

/-- Number of missing (NaN) entries of a column (`col.isnull().sum()`). -/
def Col.missingCount : Col → Nat
  | .numeric vs => vs.countP (·.isNone)
  | .object vs => vs.countP (·.isNone)

/-- Whether entry `i` of the column is missing (out-of-range counts as present,
matching the fact that it never arises on uniform dataframes). -/
def Col.hasNAat : Col → Nat → Bool
  | .numeric vs, i => (vs.getD i (some 0)).isNone
  | .object vs, i => (vs.getD i (some "")).isNone

/-- Restrict a column to the positions listed in `idx` (row selection). -/
def Col.select : Col → List Nat → Col
  | .numeric vs, idx => .numeric (idx.map fun i => vs.getD i none)
  | .object vs, idx => .object (idx.map fun i => vs.getD i none)

/-- Row count of a dataframe (`df.shape[0]`): length of its first column. -/
def DF.nrows : DF → Nat
  | [] => 0
  | c :: _ => c.2.size

/-- Column count of a dataframe (`df.shape[1]`). -/
def DF.ncols (df : DF) : Nat := df.length

/-- All columns have the dataframe's row count (always true of a real
pandas dataframe; stated explicitly because `DF` is a bare list). -/
def DF.uniform (df : DF) : Prop := ∀ c ∈ df, c.2.size = df.nrows

instance (df : DF) : Decidable (df.uniform) := by
  unfold DF.uniform; infer_instance

/-- Look up a column by name (first match, like `df[name]`). -/
def DF.getCol (df : DF) (name : String) : Option Col :=
  (df.find? fun p => p.1 = name).map (·.2)

/-- Total number of missing cells (`X.isnull().sum().sum()`,
`src/data_prep.py` line 126). -/
def countMissing (X : DF) : Nat := (X.map (·.2.missingCount)).sum

/-- Names of the numeric-dtype feature columns
(`src/data_prep.py` line 105). -/
def numericFeatures (X : DF) : List String :=
  (X.filter (·.2.isNumeric)).map (·.1)

/-- Names of the object-dtype feature columns
(`src/data_prep.py` line 106). -/
def categoricalFeatures (X : DF) : List String :=
  (X.filter (·.2.isObject)).map (·.1)

/-- Sorted list of the distinct elements of `l`; this is `np.unique` /
sklearn's category ordering for encoders. -/
def sortDedup {α : Type} [LinearOrder α] [DecidableEq α] (l : List α) : List α :=
  (l.dedup).insertionSort (· ≤ ·)

theorem mem_sortDedup {α : Type} [LinearOrder α] [DecidableEq α]
    {a : α} {l : List α} : a ∈ sortDedup l ↔ a ∈ l := by
  unfold sortDedup
  rw [(List.perm_insertionSort (· ≤ ·) l.dedup).mem_iff, List.mem_dedup]

theorem nodup_sortDedup {α : Type} [LinearOrder α] [DecidableEq α]
    (l : List α) : (sortDedup l).Nodup :=
  (List.perm_insertionSort (· ≤ ·) l.dedup).symm.nodup l.nodup_dedup

theorem sorted_sortDedup {α : Type} [LinearOrder α] [DecidableEq α]
    (l : List α) : (sortDedup l).Sorted (· ≤ ·) :=
  List.sorted_insertionSort (· ≤ ·) l.dedup

theorem sortDedup_eq_of_same_mem {α : Type} [LinearOrder α] [DecidableEq α]
    {l₁ l₂ : List α} (h : ∀ a, a ∈ l₁ ↔ a ∈ l₂) :
    sortDedup l₁ = sortDedup l₂ := by
  refine List.eq_of_perm_of_sorted ?_ (sorted_sortDedup l₁) (sorted_sortDedup l₂)
  refine (List.perm_ext_iff_of_nodup (nodup_sortDedup l₁) (nodup_sortDedup l₂)).2 ?_
  intro a
  rw [mem_sortDedup, mem_sortDedup]
  exact h a

/-- Error cases of `DataPreprocessor.load_data` (`src/data_prep.py` lines
62-68): `fileNotFound` is the `FileNotFoundError`, `emptyDataset` the
`ValueError("Dataset is empty")` raised on an empty table. -/
inductive LoadError where
  | fileNotFound
  | emptyDataset
deriving DecidableEq, Repr

/-- The preprocessor's instance state relevant to loading
(`self.df`, set in `__init__` to `None` and assigned in `load_data`). -/
structure PrepState where
  df : Option DF
deriving DecidableEq, Repr

/-- pandas `DataFrame.empty`: true when either axis has length zero. -/
def DF.isEmpty (df : DF) : Bool := df.nrows = 0 || df.ncols = 0

/-- Embedding of `DataPreprocessor.load_data` (`src/data_prep.py` lines
51-71).  The filesystem is a map from paths to the table `pd.read_csv`
would produce.  Mirroring the source, `self.df` is assigned (line 65)
*before* the emptiness check (line 67), so on the empty-dataset error the
state already holds the empty table. -/
def load_data (fs : String → Option DF) (path : String) (s : PrepState) :
    PrepState × Except LoadError DF :=
  match fs path with
  | none => (s, .error .fileNotFound)
  | some t =>
      let s' : PrepState := { s with df := some t }
      if t.isEmpty then (s', .error .emptyDataset) else (s', .ok t)

/-- Embedding of `DataPreprocessor.identify_target` (`src/data_prep.py`
line 80): the last column's name. -/
def identify_target (df : DF) : String :=
  ((df.map (·.1)).getLast?).getD ""

/-- Embedding of `DataPreprocessor.separate_features_target`
(`src/data_prep.py` lines 91-92): `X = df.drop(columns=[target])`,
`y = df[target]`. -/
def separate_features_target (df : DF) (target : String) : DF × Col :=
  (df.filter (fun p => p.1 ≠ target),
   ((df.find? fun p => p.1 = target).map (·.2)).getD (Col.numeric []))

/-- Index list of the rows kept by `DataFrame.dropna()`: those containing
no missing value in any column. -/
def rowHasNA (X : DF) (i : Nat) : Bool := X.any fun p => p.2.hasNAat i

/-- Indices of the NA-free rows, in order. -/
def keepIdx (X : DF) : List Nat :=
  (List.range X.nrows).filter fun i => !rowHasNA X i

/-- pandas `DataFrame.dropna()` (`src/data_prep.py` line 133): keep exactly
the rows with no missing value in any column. -/
def dropna (X : DF) : DF := X.map fun p => (p.1, p.2.select (keepIdx X))

/-- Arithmetic mean of a list (`SimpleImputer(strategy='mean')` statistic,
computed over the non-missing entries). -/
def listMean (l : List ℚ) : ℚ := l.sum / l.length

/-- numpy median over the non-missing entries
(`SimpleImputer(strategy='median')`): middle element of the sorted list, or
the average of the two middle elements for even length. -/
def npMedian (l : List ℚ) : ℚ :=
  let s := l.insertionSort (· ≤ ·)
  let n := s.length
  if n % 2 = 1 then s.getD (n / 2) 0
  else (s.getD (n / 2 - 1) 0 + s.getD (n / 2) 0) / 2

/-- scipy-style mode (`SimpleImputer(strategy='most_frequent')`): the
smallest among the most frequent values. -/
def npMode (l : List ℚ) : ℚ :=
  let u := sortDedup l
  u.foldl (fun best v => if l.count best < l.count v then v else best)
    (u.headD 0)

/-- Fill the missing entries of one numeric column with the statistic `stat`
of its non-missing entries (one column of `SimpleImputer.fit_transform`). -/
def imputeColWith (stat : List ℚ → ℚ) (vs : List (Option ℚ)) :
    List (Option ℚ) :=
  let m := stat (vs.filterMap id)
  vs.map fun o => some (o.getD m)

/-- Apply `imputeColWith` to a numeric column, leave object columns alone
(the source only passes `self.numeric_features` to the imputer). -/
def Col.imputeNumeric (stat : List ℚ → ℚ) : Col → Col
  | .numeric vs => .numeric (imputeColWith stat vs)
  | c => c

/-- Embedding of `DataPreprocessor.handle_missing_values`
(`src/data_prep.py` lines 116-140).  `initial_missing` counts missing cells
over *all* columns (line 126); with zero missing the input is returned
unchanged for any strategy (lines 128-130); strategy `'drop'` applies
`X.dropna()` over all columns (line 133); any other strategy builds
`SimpleImputer(strategy=strategy)` and imputes only the numeric feature
columns (lines 136-137) — sklearn rejects strategies outside
mean/median/most_frequent/constant with a `ValueError`, embedded as
`.error`. -/
def handle_missing_values (strategy : String) (X : DF)
    (numFeats : List String) : Except String DF :=
  if countMissing X = 0 then .ok X
  else if strategy = "drop" then .ok (dropna X)
  else
    let stat? : Option (List ℚ → ℚ) :=
      if strategy = "mean" then some listMean
      else if strategy = "median" then some npMedian
      else if strategy = "most_frequent" then some npMode
      else if strategy = "constant" then some (fun _ => 0)
      else none
    match stat? with
    | none => .error "can only use these strategies"
    | some stat =>
        .ok (X.map fun p =>
          if p.1 ∈ numFeats then (p.1, p.2.imputeNumeric stat) else p)

/-- Pipeline state after `separate_features_target`: the feature table
`self.X` and the target series `self.y`. -/
structure PState where
  X : DF
  y : Col
deriving DecidableEq, Repr

/-- The `handle_missing_values` pipeline step acting on the instance state:
the source method reassigns `self.X` only and never touches `self.y`. -/
def step_impute (strategy : String) (numFeats : List String) (s : PState) :
    Except String PState :=
  (handle_missing_values strategy s.X numFeats).map fun X' => { s with X := X' }

/-- sklearn `LabelEncoder.fit` on the target series (`src/data_prep.py`
line 150): `classes_ = np.unique(y)`, the sorted distinct labels. -/
def leClasses (ys : List String) : List String := sortDedup ys

/-- sklearn `LabelEncoder.transform` of one label: its index in the sorted
class list. -/
def leTransform (ys : List String) (v : String) : Nat :=
  (leClasses ys).indexOf v

/-- sklearn `LabelEncoder.inverse_transform` of one code. -/
def leInverse (ys : List String) (i : Nat) : String :=
  (leClasses ys).getD i ""

/-- Embedding of `DataPreprocessor.encode_target` (`src/data_prep.py`
lines 149-150): `self.y = self.le_target.fit_transform(self.y)`. -/
def encode_target (ys : List String) : List Nat := ys.map (leTransform ys)

/-- sklearn `OrdinalEncoder.fit` for one column: `categories_` are the
sorted distinct non-missing values (`src/data_prep.py` line 178). -/
def ordFit (vals : List (Option String)) : List String :=
  sortDedup (vals.filterMap id)

/-- sklearn `OrdinalEncoder.transform` for one value, under
`handle_unknown='use_encoded_value', unknown_value=-1`
(`src/data_prep.py` line 175): the category's index when fitted, the
sentinel `-1` otherwise — never an error. -/
def ordTransform (cats : List String) (v : String) : Int :=
  match cats.indexOf? v with
  | some i => (i : Int)
  | none => -1

/-- Fit-and-transform one object column with the ordinal encoder; missing
values pass through (`encoded_missing_value` keeps NaN).  The result is a
numeric column, as after line 178's assignment. -/
def ordinalEncodeCol (fitVals vals : List (Option String)) : Col :=
  .numeric (vals.map (Option.map fun v => ((ordTransform (ordFit fitVals) v : Int) : ℚ)))

/-- The ordinal branch of `encode_categorical_features` (`src/data_prep.py`
lines 175-178): every listed categorical column is replaced, in place, by
its ordinal encoding fitted on itself. -/
def ordinalEncodeAll (X : DF) (cats : List String) : DF :=
  X.map fun p =>
    if p.1 ∈ cats then
      (p.1, match p.2 with
            | .object vals => ordinalEncodeCol vals vals
            | c => c)
    else p

/-- Distinct non-missing values observed in an object column, sorted: the
levels `pd.get_dummies` creates indicator columns for (with the default
`dummy_na=False`, a missing value gets no column and all-zero indicators). -/
def observedCats (vals : List (Option String)) : List String :=
  sortDedup (vals.filterMap id)

/-- The indicator columns `pd.get_dummies` derives from one object column
(`src/data_prep.py` lines 171-172, `drop_first=False, dtype=int`): one
binary numeric column per observed level, named `name_level`. -/
def dummyColsFor (name : String) (vals : List (Option String)) : DF :=
  (observedCats vals).map fun v =>
    (name ++ "_" ++ v,
     Col.numeric (vals.map fun c => some (if c = some v then (1 : ℚ) else 0)))

/-- `pd.get_dummies(X, columns=cats, drop_first=False, dtype=int)`
(`src/data_prep.py` lines 171-172): the non-encoded columns keep their
order, the indicator columns are appended after them, grouped by original
column.  The pipeline only ever lists object columns in `cats`; a numeric
column listed there is left in place (unreachable in the source). -/
def get_dummies (X : DF) (cats : List String) : DF :=
  (X.filter fun p => p.1 ∉ cats) ++
    (X.filter fun p => p.1 ∈ cats).flatMap fun p =>
      match p.2 with
      | .object vals => dummyColsFor p.1 vals
      | .numeric _ => [p]

/-- Embedding of `DataPreprocessor.encode_categorical_features`
(`src/data_prep.py` lines 155-181): with no categorical features the input
is returned unchanged (lines 166-168); `method == 'onehot'` selects
`pd.get_dummies` (lines 170-172); *any* other method string falls into the
`else` branch and gets ordinal encoding (lines 174-178). -/
def encode_categorical_features (method : String) (X : DF)
    (catFeats : List String) : DF :=
  if catFeats = [] then X
  else if method = "onehot" then get_dummies X catFeats
  else ordinalEncodeAll X catFeats

/-- Column mean as computed by `StandardScaler.fit`. -/
def colMean (xs : List ℚ) : ℚ := xs.sum / xs.length

/-- Population variance (`ddof=0`) as computed by `StandardScaler.fit`. -/
def popVar (xs : List ℚ) : ℚ :=
  (xs.map fun x => (x - colMean xs) ^ 2).sum / xs.length

/-- Characterises sklearn's `scale_` for one column: the square root of the
population variance, except that a zero-variance column gets scale `1`
(sklearn's `_handle_zeros_in_scale`).  Square roots leave ℚ, so the scale
is a relational parameter rather than a computed value. -/
def isSkScale (xs : List ℚ) (s : ℚ) : Prop :=
  if popVar xs = 0 then s = 1 else 0 ≤ s ∧ s ^ 2 = popVar xs

instance (xs : List ℚ) (s : ℚ) : Decidable (isSkScale xs s) := by
  unfold isSkScale; infer_instance

/-- `fillna(0)` applied to one numeric column before scaling
(`src/data_prep.py` line 201). -/
def fillna0 (vs : List (Option ℚ)) : List ℚ := vs.map (·.getD 0)

/-- One column of `StandardScaler.fit_transform` (`src/data_prep.py`
lines 199-201): `(x - mean) / scale`, with `scale` as in `isSkScale`. -/
def fitTransformCol (xs : List ℚ) (s : ℚ) : List ℚ :=
  xs.map fun x => (x - colMean xs) / s

/-- The numeric columns of a dataframe with their values, in order
(`X.select_dtypes(include=[np.number])`, `src/data_prep.py` line 220). -/
def numericColsOf (X : DF) : List (String × List (Option ℚ)) :=
  X.filterMap fun p =>
    match p.2 with
    | .numeric vs => some (p.1, vs)
    | .object _ => none

/-- The additive epsilon guarding the engineered ratio's denominator
(`src/data_prep.py` line 227). -/
def eps : ℚ := 1 / 1000000

/-- Denominator of the `Efficiency_Score` feature for one cell of the
second numeric column: `x + 1e-6` (`src/data_prep.py` line 227). -/
def effDenom (b : ℚ) : ℚ := b + eps

/-- Values of the second numeric column (`numeric_cols[1]`). -/
def sndNumVals (X : DF) : List (Option ℚ) :=
  ((numericColsOf X).getD 1 ("", [])).2

/-- Rowwise denominators of the `Efficiency_Score` feature; pandas
propagates NaN through the addition. -/
def efficiencyDenominators (X : DF) : List (Option ℚ) :=
  (sndNumVals X).map (Option.map effDenom)

/-- The `Efficiency_Score` column (`src/data_prep.py` lines 226-228):
`numeric_cols[0] / (numeric_cols[1] + 1e-6)` rowwise, NaN propagating.
(Where the denominator is zero pandas produces `±inf`/NaN; ℚ has no such
value — the claims only concern whether the denominator is zero.) -/
def effCol (X : DF) : List (Option ℚ) :=
  List.zipWith
    (fun a d =>
      match a, d with
      | some x, some dd => some (x / dd)
      | _, _ => none)
    ((numericColsOf X).getD 0 ("", [])).2 (efficiencyDenominators X)

/-- pandas rowwise `mean(axis=1)`: mean of the non-missing cells of the
row, NaN when all are missing. -/
def rowMeanSkipNA (cells : List (Option ℚ)) : Option ℚ :=
  let v := cells.filterMap id
  if v = [] then none else some (v.sum / v.length)

/-- pandas rowwise `sum(axis=1)`: sum of the non-missing cells (0 when all
are missing, pandas' `min_count=0` default). -/
def rowSumSkipNA (cells : List (Option ℚ)) : ℚ := (cells.filterMap id).sum

/-- Cells of row `i` across the given columns. -/
def rowCells (cols : List (List (Option ℚ))) (i : Nat) : List (Option ℚ) :=
  cols.map fun c => c.getD i none

/-- The `Engagement_Score` column (`src/data_prep.py` line 236): rowwise
mean of the first three numeric columns. -/
def engagementCol (X : DF) : List (Option ℚ) :=
  (List.range X.nrows).map fun i =>
    rowMeanSkipNA (rowCells (((numericColsOf X).take 3).map (·.2)) i)

/-- The `Learning_Index` column (`src/data_prep.py` line 244): rowwise sum
of the first four numeric columns. -/
def learningCol (X : DF) : List (Option ℚ) :=
  (List.range X.nrows).map fun i =>
    some (rowSumSkipNA (rowCells (((numericColsOf X).take 4).map (·.2)) i))

/-- Embedding of `DataPreprocessor.create_engineered_features`
(`src/data_prep.py` lines 206-254): each derived column is appended only
when its minimum numeric-column count is met, and every source column is
taken from the *argument* table `X_processed`.  The function is total:
below a threshold the feature is simply skipped. -/
def create_engineered_features (X : DF) : DF :=
  let n := (numericColsOf X).length
  let X1 := if 2 ≤ n then X ++ [("Efficiency_Score", Col.numeric (effCol X))] else X
  let X2 := if 3 ≤ n then X1 ++ [("Engagement_Score", Col.numeric (engagementCol X))] else X1
  if 4 ≤ n then X2 ++ [("Learning_Index", Col.numeric (learningCol X))] else X2

/-- Per-model test-set metric record (`ModelTrainer._evaluate_model`,
`src/model_train.py` lines 270-275). -/
structure TestScores where
  accuracy : ℚ
  precisionMacro : ℚ
  recallMacro : ℚ
  f1Macro : ℚ
deriving DecidableEq, Repr

/-- Column lookup of `scores_df[metric]` for one model's record: the four
metric names stored by `_evaluate_model`; any other name is a `KeyError`
(`none`). -/
def TestScores.metric (s : TestScores) (m : String) : Option ℚ :=
  if m = "Accuracy" then some s.accuracy
  else if m = "Precision" then some s.precisionMacro
  else if m = "Recall" then some s.recallMacro
  else if m = "F1_Score" then some s.f1Macro
  else none

/-- The trainer's `self.test_scores` table: one `(model kind, record)` pair
per evaluated model, in insertion order.  `train_all_models`
(`src/model_train.py` lines 294-297) inserts Logistic_Regression,
Random_Forest, XGBoost, Neural_Network, in that fixed order. -/
abbrev ScoresTable := List (String × TestScores)

/-- Extract the `metric` column of `scores_df` in row order; `none` when
the metric name is not a stored column. -/
def extractScores (metric : String) (ts : ScoresTable) :
    Option (List (String × ℚ)) :=
  ts.mapM fun p => (p.1, ·) <$> p.2.metric metric

/-- One step of the `idxmax` scan: the running best is replaced only on a
strict increase, which is exactly pandas' first-occurrence tie-breaking. -/
def idxmaxStep (acc : Option (String × ℚ)) (p : String × ℚ) :
    Option (String × ℚ) :=
  match acc with
  | none => some p
  | some q => if q.2 < p.2 then some p else some q

/-- pandas `Series.idxmax` over an insertion-ordered `(label, value)` list:
the label/value of the *first* occurrence of the maximum value. -/
def idxmax (l : List (String × ℚ)) : Option (String × ℚ) :=
  l.foldl idxmaxStep none

/-- Embedding of `ModelTrainer.get_best_model` (`src/model_train.py`
lines 305-320): `scores_df[metric].idxmax()`, the name of the first model
kind attaining the maximal test-set score for `metric`. -/
def get_best_model (metric : String) (ts : ScoresTable) : Option String :=
  (extractScores metric ts).bind fun scores => (idxmax scores).map (·.1)

/-- `r` is the first maximum of `l`: it occurs in `l`, no score exceeds
its score, and every earlier entry scores strictly less. -/
def IsFirstMax (l : List (String × ℚ)) (r : String × ℚ) : Prop :=
  ∃ l₁ l₂, l = l₁ ++ r :: l₂ ∧ (∀ q ∈ l, q.2 ≤ r.2) ∧ ∀ q ∈ l₁, q.2 < r.2

/-- C10: in `encode_categorical_features`, any method flag other than the
exact string `'onehot'` — including misspelled or invalid method names —
is silently treated as ordinal encoding (the function is total, so no
error is ever raised for an unrecognized method). -/
theorem C10_unrecognized_method_means_ordinal (method : String) (X : DF)
    (catFeats : List String) (h : method ≠ "onehot") :
    encode_categorical_features method X catFeats =
      ordinalEncodeAll X catFeats := by
  unfold encode_categorical_features
  by_cases hc : catFeats = []
  · subst hc
    simp [ordinalEncodeAll]
  · simp [hc, h]

theorem C10_witness :
    encode_categorical_features "ordnial"
        [("c", Col.object [some "a", some "b"])] ["c"] =
      ordinalEncodeAll [("c", Col.object [some "a", some "b"])] ["c"] :=
  C10_unrecognized_method_means_ordinal "ordnial" _ _ (by decide)

/-- C5: an ordinal encoder fitted (with `handle_unknown='use_encoded_value',
unknown_value=-1`) on the observed values of a column maps any value absent
from the fit set to the sentinel `-1` — never an error — and every observed
value to a non-negative index. -/
theorem C5_ordinal_unseen_gets_sentinel (fitVals : List (Option String))
    (v w : String) (hv : some v ∉ fitVals) (hw : some w ∈ fitVals) :
    ordTransform (ordFit fitVals) v = -1 ∧
    0 ≤ ordTransform (ordFit fitVals) w := by
  constructor
  · have hnone : (ordFit fitVals).indexOf? v = none := by
      rw [List.indexOf?_eq_none_iff]
      intro x hx hbeq
      rw [beq_iff_eq] at hbeq
      subst hbeq
      rw [ordFit, mem_sortDedup, List.mem_filterMap] at hx
      obtain ⟨a, ha, hav⟩ := hx
      simp only [id] at hav
      exact hv (hav ▸ ha)
    rw [ordTransform, hnone]
  · have hmem : w ∈ ordFit fitVals := by
      rw [ordFit, mem_sortDedup, List.mem_filterMap]
      exact ⟨some w, hw, rfl⟩
    rw [ordTransform]
    cases hidx : (ordFit fitVals).indexOf? w with
    | none =>
        rw [List.indexOf?_eq_none_iff] at hidx
        exact absurd (by simp : (w == w) = true) (hidx w hmem)
    | some i => exact Int.ofNat_nonneg i

theorem C5_witness :
    ordTransform (ordFit [some "yes", none, some "yes"]) "no" = -1 ∧
    0 ≤ ordTransform (ordFit [some "yes", none, some "yes"]) "yes" :=
  C5_ordinal_unseen_gets_sentinel [some "yes", none, some "yes"] "no" "yes"
    (by decide) (by decide)

/-- C4: for a non-empty target series, `LabelEncoder.fit_transform` as used
by `encode_target` is a bijection from the observed labels onto
`{0, ..., num_classes - 1}` assigned in sorted label order: codes are below
the class count, decoding the code of an observed label returns the label,
distinct labels get distinct codes, every code is attained, and the same
observed label set always yields the same class list (hence the same map). -/
theorem C4_target_encoding_bijection (ys ys' : List String) (_hne : ys ≠ []) :
    (leClasses ys).Sorted (· ≤ ·) ∧
    (∀ v ∈ ys, leTransform ys v < (leClasses ys).length ∧
      leInverse ys (leTransform ys v) = v) ∧
    (∀ v ∈ ys, ∀ w ∈ ys, leTransform ys v = leTransform ys w → v = w) ∧
    (∀ i, i < (leClasses ys).length → ∃ v ∈ ys, leTransform ys v = i) ∧
    ((∀ a, a ∈ ys ↔ a ∈ ys') → leClasses ys = leClasses ys') := by
  have hmem : ∀ v, v ∈ ys → v ∈ leClasses ys := fun v hv =>
    (mem_sortDedup (l := ys)).2 hv
  refine ⟨sorted_sortDedup ys, ?_, ?_, ?_, ?_⟩
  · intro v hv
    have hlt : (leClasses ys).indexOf v < (leClasses ys).length :=
      List.indexOf_lt_length.2 (hmem v hv)
    refine ⟨hlt, ?_⟩
    rw [leInverse, leTransform, List.getD_eq_getElem?_getD,
      List.getElem?_eq_getElem hlt]
    simp [List.indexOf_get (a := v) (l := leClasses ys) hlt]
  · intro v hv w hw h
    exact (List.indexOf_inj (hmem v hv) (hmem w hw)).1 h
  · intro i hi
    refine ⟨(leClasses ys)[i], ?_, ?_⟩
    · exact (mem_sortDedup (l := ys)).1 (List.getElem_mem hi)
    · rw [leTransform]
      exact List.indexOf_getElem (nodup_sortDedup ys) i hi
  · intro hsame
    exact sortDedup_eq_of_same_mem hsame

theorem C4_witness :
    (leClasses ["med", "low", "high", "low"]).Sorted (· ≤ ·) ∧
    (∀ v ∈ ["med", "low", "high", "low"],
      leTransform ["med", "low", "high", "low"] v <
        (leClasses ["med", "low", "high", "low"]).length ∧
      leInverse ["med", "low", "high", "low"]
        (leTransform ["med", "low", "high", "low"] v) = v) ∧
    (∀ v ∈ ["med", "low", "high", "low"], ∀ w ∈ ["med", "low", "high", "low"],
      leTransform ["med", "low", "high", "low"] v =
        leTransform ["med", "low", "high", "low"] w → v = w) ∧
    (∀ i, i < (leClasses ["med", "low", "high", "low"]).length →
      ∃ v ∈ ["med", "low", "high", "low"],
        leTransform ["med", "low", "high", "low"] v = i) ∧
    ((∀ a, a ∈ ["med", "low", "high", "low"] ↔ a ∈ ["low", "high", "med"]) →
      leClasses ["med", "low", "high", "low"] = leClasses ["low", "high", "med"]) :=
  C4_target_encoding_bijection ["med", "low", "high", "low"]
    ["low", "high", "med"] (by decide)

theorem foldl_idxmaxStep_isFirstMax :
    ∀ (l : List (String × ℚ)) (p : String × ℚ),
      ∃ r, l.foldl idxmaxStep (some p) = some r ∧ IsFirstMax (p :: l) r := by
  intro l
  induction l with
  | nil =>
      intro p
      refine ⟨p, rfl, [], [], rfl, ?_, by simp⟩
      intro q hq
      rw [List.mem_singleton] at hq
      exact le_of_eq (congrArg Prod.snd hq)
  | cons a t ih =>
      intro p
      rw [List.foldl_cons]
      by_cases hpa : p.2 < a.2
      · rw [show idxmaxStep (some p) a = some a by simp [idxmaxStep, hpa]]
        obtain ⟨r, hfold, l₁, l₂, hdec, hmax, hpre⟩ := ih a
        have har : a.2 ≤ r.2 := hmax a (List.mem_cons_self a t)
        refine ⟨r, hfold, p :: l₁, l₂, by simp [hdec], ?_, ?_⟩
        · intro q hq
          rcases List.mem_cons.1 hq with hq | hq
          · exact hq ▸ le_of_lt (lt_of_lt_of_le hpa har)
          · exact hmax q hq
        · intro q hq
          rcases List.mem_cons.1 hq with hq | hq
          · exact hq ▸ lt_of_lt_of_le hpa har
          · exact hpre q hq
      · rw [show idxmaxStep (some p) a = some p by simp [idxmaxStep, hpa]]
        push_neg at hpa
        obtain ⟨r, hfold, l₁, l₂, hdec, hmax, hpre⟩ := ih p
        cases l₁ with
        | nil =>
            rw [List.nil_append] at hdec
            injection hdec with hrp htl
            subst hrp
            refine ⟨p, hfold, [], a :: t, by simp [htl], ?_, by simp⟩
            intro q hq
            rcases List.mem_cons.1 hq with hq | hq
            · exact le_of_eq (congrArg Prod.snd hq)
            · rcases List.mem_cons.1 hq with hq | hq
              · exact hq ▸ hpa
              · exact hmax q (List.mem_cons_of_mem p hq)
        | cons x l₁' =>
            rw [List.cons_append] at hdec
            injection hdec with hxp htl
            subst hxp
            have hpr : p.2 < r.2 := hpre p (List.mem_cons_self p l₁')
            refine ⟨r, hfold, p :: a :: l₁', l₂, by simp [htl], ?_, ?_⟩
            · intro q hq
              rcases List.mem_cons.1 hq with hq | hq
              · exact hq ▸ le_of_lt hpr
              · rcases List.mem_cons.1 hq with hq | hq
                · exact hq ▸ le_of_lt (lt_of_le_of_lt hpa hpr)
                · exact hmax q (List.mem_cons_of_mem p hq)
            · intro q hq
              rcases List.mem_cons.1 hq with hq | hq
              · exact hq ▸ hpr
              · rcases List.mem_cons.1 hq with hq | hq
                · exact hq ▸ lt_of_le_of_lt hpa hpr
                · exact hpre q (List.mem_cons_of_mem p hq)

/-- C8: when every model kind has been evaluated (so the metric column is
recorded for each entry of `test_scores`), `get_best_model` returns a model
kind whose recorded test-set score for the metric is maximal among all
trained kinds, and it is precisely the *first* kind (in the fixed training
insertion order) attaining that maximum — a deterministic tie-break, so
repeated runs over the same recorded scores return the same kind. -/
theorem C8_best_model_first_max (metric : String) (ts : ScoresTable)
    (scores : List (String × ℚ)) (hex : extractScores metric ts = some scores)
    (hne : scores ≠ []) :
    ∃ r, get_best_model metric ts = some r.1 ∧ IsFirstMax scores r := by
  cases scores with
  | nil => exact absurd rfl hne
  | cons p rest =>
      obtain ⟨r, hfold, hfirst⟩ := foldl_idxmaxStep_isFirstMax rest p
      refine ⟨r, ?_, hfirst⟩
      rw [get_best_model, hex]
      show Option.map (fun x => x.1) (idxmax (p :: rest)) = some r.1
      rw [idxmax, List.foldl_cons, show idxmaxStep none p = some p from rfl,
        hfold]
      rfl

theorem C8_witness :
    ∃ r,
      get_best_model "F1_Score"
          [("Logistic_Regression", ⟨9/10, 7/10, 7/10, 3/4⟩),
           ("Random_Forest", ⟨9/10, 8/10, 8/10, 4/5⟩),
           ("XGBoost", ⟨9/10, 8/10, 8/10, 4/5⟩),
           ("Neural_Network", ⟨1/2, 1/5, 1/5, 1/5⟩)] = some r.1 ∧
      IsFirstMax
        [("Logistic_Regression", 3/4), ("Random_Forest", 4/5),
         ("XGBoost", 4/5), ("Neural_Network", 1/5)] r :=
  C8_best_model_first_max "F1_Score"
    [("Logistic_Regression", ⟨9/10, 7/10, 7/10, 3/4⟩),
     ("Random_Forest", ⟨9/10, 8/10, 8/10, 4/5⟩),
     ("XGBoost", ⟨9/10, 8/10, 8/10, 4/5⟩),
     ("Neural_Network", ⟨1/2, 1/5, 1/5, 1/5⟩)]
    [("Logistic_Regression", 3/4), ("Random_Forest", 4/5),
     ("XGBoost", 4/5), ("Neural_Network", 1/5)]
    (by norm_num +decide [extractScores, TestScores.metric, List.mapM,
      List.mapM.loop])
    (by decide)

/-- Value of the `i`-th entry of a numeric column (`none` for object
columns or out-of-range positions). -/
def colValAt : Col → Nat → Option ℚ
  | .numeric vs, i => vs.getD i none
  | .object _, _ => none

/-- Row `i`'s sum over the indicator columns that `get_dummies` derives
from one original categorical column (a missing indicator entry counts 0). -/
def dummyRowSum (name : String) (vals : List (Option String)) (i : Nat) : ℚ :=
  ((dummyColsFor name vals).map fun p => (colValAt p.2 i).getD 0).sum

theorem sum_indicator_nodup (l : List String) (w : String) (hnd : l.Nodup) :
    (l.map fun v => if w = v then (1 : ℚ) else 0).sum =
      if w ∈ l then 1 else 0 := by
  induction l with
  | nil => simp
  | cons a t ih =>
      rw [List.nodup_cons] at hnd
      rw [List.map_cons, List.sum_cons, ih hnd.2]
      by_cases hwa : w = a
      · subst hwa
        rw [if_pos rfl, if_neg hnd.1, if_pos (List.mem_cons_self w t)]
        norm_num
      · simp only [if_neg hwa, List.mem_cons]
        by_cases hwt : w ∈ t
        · simp [hwt, hwa]
        · simp [hwt, hwa]

theorem dummyRowSum_eq (name : String) (vals : List (Option String)) (i : Nat) :
    dummyRowSum name vals i =
      ((observedCats vals).map fun v =>
        (((vals[i]?).map fun c =>
          some (if c = some v then (1 : ℚ) else 0)).getD none).getD 0).sum := by
  rw [dummyRowSum, dummyColsFor, List.map_map]
  refine congrArg List.sum (List.map_congr_left ?_)
  intro v _
  simp only [Function.comp_apply, colValAt, List.getD_eq_getElem?_getD,
    List.getElem?_map]

/-- C1 (amended): `get_dummies` expands a categorical column into exactly
`N` indicator columns, one per distinct observed (non-missing) value — no
level dropped — and every indicator entry is 0 or 1; per row, the
indicators of one original column sum to exactly 1 *when that row's value
is non-missing*, and to 0 when it is missing (pandas `dummy_na=False`). -/
theorem C1_onehot_expansion_row_sums (name : String)
    (vals : List (Option String)) :
    (dummyColsFor name vals).length = (observedCats vals).length ∧
    (∀ v, some v ∈ vals →
      (name ++ "_" ++ v,
        Col.numeric (vals.map fun c => some (if c = some v then (1 : ℚ) else 0))) ∈
        dummyColsFor name vals) ∧
    (∀ p ∈ dummyColsFor name vals, ∀ i,
      (colValAt p.2 i).getD 0 = 0 ∨ (colValAt p.2 i).getD 0 = 1) ∧
    (∀ i w, vals[i]? = some (some w) → dummyRowSum name vals i = 1) ∧
    (∀ i, vals[i]? = some none → dummyRowSum name vals i = 0) := by
  refine ⟨List.length_map _ _, ?_, ?_, ?_, ?_⟩
  · intro v hv
    have hobs : v ∈ observedCats vals := by
      rw [observedCats, mem_sortDedup, List.mem_filterMap]
      exact ⟨some v, hv, rfl⟩
    exact List.mem_map.2 ⟨v, hobs, rfl⟩
  · intro p hp i
    obtain ⟨v, _, hpv⟩ := List.mem_map.1 hp
    subst hpv
    simp only [colValAt, List.getD_eq_getElem?_getD, List.getElem?_map]
    cases h : vals[i]? with
    | none => simp
    | some c =>
        by_cases hc : c = some v
        · simp [hc]
        · simp [hc]
  · intro i w hiw
    rw [dummyRowSum_eq]
    simp only [hiw, Option.map_some', Option.getD_some, Option.some.injEq]
    have hnd : (observedCats vals).Nodup := by
      rw [observedCats]; exact nodup_sortDedup _
    rw [sum_indicator_nodup _ _ hnd]
    have hwmem : w ∈ observedCats vals := by
      rw [observedCats, mem_sortDedup, List.mem_filterMap]
      exact ⟨some w, List.getElem?_mem hiw, rfl⟩
    rw [if_pos hwmem]
  · intro i hi
    rw [dummyRowSum_eq]
    simp only [hi, Option.map_some', Option.getD_some]
    simp

theorem C1_witness :
    dummyRowSum "c" [some "a", some "b", some "a"] 0 = 1 ∧
    dummyRowSum "c" [some "a", some "b", some "a"] 1 = 1 :=
  ⟨(C1_onehot_expansion_row_sums "c" [some "a", some "b", some "a"]).2.2.2.1
      0 "a" rfl,
   (C1_onehot_expansion_row_sums "c" [some "a", some "b", some "a"]).2.2.2.1
      1 "b" rfl⟩

/-- C1 counterexample to the claim as stated: on a fitted one-hot encoding
of a feature table whose categorical column contains a missing value, the
row with the missing value has indicator sum 0, not 1 (and the missing
value contributes no level: N counts only the observed values). -/
theorem C1_counterexample :
    observedCats [some "a", none] = ["a"] ∧
    encode_categorical_features "onehot" [("c", Col.object [some "a", none])]
        ["c"] = [("c_a", Col.numeric [some 1, some 0])] ∧
    dummyRowSum "c" [some "a", none] 1 = 0 := by
  refine ⟨?_, ?_, ?_⟩
  · simp [observedCats, sortDedup, List.insertionSort, List.orderedInsert]
  · norm_num +decide [encode_categorical_features, get_dummies, dummyColsFor,
      observedCats, sortDedup, List.insertionSort, List.orderedInsert,
      List.filter, List.flatMap]
  · norm_num +decide [dummyRowSum, dummyColsFor, observedCats, sortDedup,
      List.insertionSort, List.orderedInsert, colValAt]

/-- C2 (amended): with zero missing values `handle_missing_values` returns
its input unchanged for *every* strategy and cannot raise; with at least
one missing value, strategy `'drop'` applies `dropna`, which removes
exactly the rows containing a missing value in *any* column (numeric or
categorical), keeping all others. -/
theorem C2_impute_drop_and_noop (X : DF) (numFeats : List String)
    (strategy : String) (i : Nat) :
    (countMissing X = 0 →
      handle_missing_values strategy X numFeats = .ok X) ∧
    (countMissing X ≠ 0 →
      handle_missing_values "drop" X numFeats = .ok (dropna X)) ∧
    (i ∈ keepIdx X ↔ i < X.nrows ∧ rowHasNA X i = false) := by
  refine ⟨?_, ?_, ?_⟩
  · intro h
    rw [handle_missing_values, if_pos h]
  · intro h
    rw [handle_missing_values, if_neg h, if_pos rfl]
  · simp [keepIdx, List.mem_filter, List.mem_range, Bool.not_eq_true',
      and_comm]

theorem C2_witness :
    handle_missing_values "median" [("n", Col.numeric [some 1])] ["n"] =
      .ok [("n", Col.numeric [some 1])] ∧
    (0 ∈ keepIdx [("n", Col.numeric [some 1])] ↔
      0 < DF.nrows [("n", Col.numeric [some 1])] ∧
      rowHasNA [("n", Col.numeric [some 1])] 0 = false) :=
  ⟨(C2_impute_drop_and_noop [("n", Col.numeric [some 1])] ["n"] "median" 0).1
      (by decide),
   (C2_impute_drop_and_noop [("n", Col.numeric [some 1])] ["n"] "median" 0).2.2⟩

/-- C2 counterexample to the claim as stated: a feature table whose numeric
columns are complete but whose categorical column has one missing value.
The claim predicts `'drop'` removes no row (no numeric column has a missing
value), yet the code's `X.dropna()` removes the second row. -/
theorem C2_counterexample :
    ((([("n", Col.numeric [some 1, some 2]),
        ("c", Col.object [some "u", none])] : DF).filter
        (·.2.isNumeric)).map (·.2.missingCount)) = [0] ∧
    handle_missing_values "drop"
        [("n", Col.numeric [some 1, some 2]),
         ("c", Col.object [some "u", none])] ["n"] =
      .ok [("n", Col.numeric [some 1]), ("c", Col.object [some "u"])] ∧
    DF.nrows [("n", Col.numeric [some 1]), ("c", Col.object [some "u"])] = 1 ∧
    DF.nrows [("n", Col.numeric [some 1, some 2]),
      ("c", Col.object [some "u", none])] = 2 :=
  ⟨rfl, rfl, rfl, rfl⟩

theorem Col.size_select (c : Col) (idx : List Nat) :
    (c.select idx).size = idx.length := by
  cases c <;> simp [Col.select, Col.size]

theorem dropna_nrows (X : DF) (hX : X ≠ []) :
    (dropna X).nrows = (keepIdx X).length := by
  cases X with
  | nil => exact absurd rfl hX
  | cons c rest => simp [dropna, DF.nrows, Col.size_select]

/-- C3 (amended): `separate_features_target` produces a feature table and a
target series with the dataframe's row count, and the impute step never
touches the target series; consequently, `'drop'` on a table with a missing
value strictly shrinks the feature table's row count while the target
series keeps its original length — the equal-row-count invariant is *not*
preserved by the `'drop'` strategy. -/
theorem C3_drop_desyncs_features_target (df : DF) (t strategy : String)
    (nf : List String) (s s' : PState) (i : Nat) :
    (df.uniform → (DF.getCol df t).isSome →
      (separate_features_target df t).1 ≠ [] →
      (separate_features_target df t).1.nrows = df.nrows ∧
      (separate_features_target df t).2.size = df.nrows) ∧
    (step_impute strategy nf s = .ok s' → s'.y = s.y) ∧
    (countMissing s.X ≠ 0 →
      step_impute "drop" nf s = .ok ⟨dropna s.X, s.y⟩) ∧
    (i < s.X.nrows → rowHasNA s.X i = true →
      (dropna s.X).nrows < s.X.nrows) := by
  refine ⟨?_, ?_, ?_, ?_⟩
  · intro hu ht hne
    constructor
    · cases hX : (separate_features_target df t).1 with
      | nil => exact absurd hX hne
      | cons c rest =>
          have hc : c ∈ df := by
            have hmem : c ∈ (separate_features_target df t).1 :=
              hX ▸ List.mem_cons_self c rest
            rw [separate_features_target] at hmem
            exact List.mem_of_mem_filter hmem
          exact hu c hc
    · cases hf : df.find? (fun p => p.1 = t) with
      | none => simp [DF.getCol, hf] at ht
      | some pr =>
          have hpr : pr ∈ df := List.mem_of_find?_eq_some hf
          have hy : (separate_features_target df t).2 = pr.2 := by
            simp [separate_features_target, hf]
          rw [hy]
          exact hu pr hpr
  · intro h
    rw [step_impute] at h
    cases hh : handle_missing_values strategy s.X nf with
    | error e => rw [hh] at h; exact absurd h (by simp [Except.map])
    | ok X' =>
        rw [hh] at h
        simp only [Except.map] at h
        injection h with h
        rw [← h]
  · intro h
    rw [step_impute, handle_missing_values, if_neg h, if_pos rfl]
    rfl
  · intro hi hna
    have hXne : s.X ≠ [] := by
      intro hnil
      rw [hnil] at hi
      simp [DF.nrows] at hi
    rw [dropna_nrows s.X hXne]
    have hcount :=
      List.length_eq_length_filter_add (l := List.range s.X.nrows)
        (fun j => !rowHasNA s.X j)
    have hmem2 : i ∈ (List.range s.X.nrows).filter
        (fun j => !(!rowHasNA s.X j)) := by
      rw [List.mem_filter, List.mem_range]
      exact ⟨hi, by rw [hna]; rfl⟩
    have hpos : 0 < ((List.range s.X.nrows).filter
        (fun j => !(!rowHasNA s.X j))).length :=
      List.length_pos.2 (List.ne_nil_of_mem hmem2)
    rw [keepIdx]
    rw [List.length_range] at hcount
    omega

theorem C3_witness :
    ((separate_features_target
        [("a", Col.numeric [some 1, none]),
         ("t", Col.object [some "x", some "y"])] "t").1.nrows =
      DF.nrows [("a", Col.numeric [some 1, none]),
        ("t", Col.object [some "x", some "y"])] ∧
     (separate_features_target
        [("a", Col.numeric [some 1, none]),
         ("t", Col.object [some "x", some "y"])] "t").2.size =
      DF.nrows [("a", Col.numeric [some 1, none]),
        ("t", Col.object [some "x", some "y"])]) ∧
    (PState.mk [("a", Col.numeric [some 1])]
        (Col.object [some "x", some "y"])).y =
      (PState.mk [("a", Col.numeric [some 1, none])]
        (Col.object [some "x", some "y"])).y ∧
    step_impute "drop" ["a"]
        ⟨[("a", Col.numeric [some 1, none])],
         Col.object [some "x", some "y"]⟩ =
      .ok ⟨dropna [("a", Col.numeric [some 1, none])],
        Col.object [some "x", some "y"]⟩ ∧
    (dropna [("a", Col.numeric [some 1, none])]).nrows <
      DF.nrows [("a", Col.numeric [some 1, none])] :=
  ⟨(C3_drop_desyncs_features_target
      [("a", Col.numeric [some 1, none]), ("t", Col.object [some "x", some "y"])]
      "t" "drop" ["a"]
      ⟨[("a", Col.numeric [some 1, none])], Col.object [some "x", some "y"]⟩
      ⟨[("a", Col.numeric [some 1])], Col.object [some "x", some "y"]⟩ 1).1
      (by decide) (by decide) (by decide),
   (C3_drop_desyncs_features_target
      [("a", Col.numeric [some 1, none]), ("t", Col.object [some "x", some "y"])]
      "t" "drop" ["a"]
      ⟨[("a", Col.numeric [some 1, none])], Col.object [some "x", some "y"]⟩
      ⟨[("a", Col.numeric [some 1])], Col.object [some "x", some "y"]⟩ 1).2.1
      rfl,
   (C3_drop_desyncs_features_target
      [("a", Col.numeric [some 1, none]), ("t", Col.object [some "x", some "y"])]
      "t" "drop" ["a"]
      ⟨[("a", Col.numeric [some 1, none])], Col.object [some "x", some "y"]⟩
      ⟨[("a", Col.numeric [some 1])], Col.object [some "x", some "y"]⟩ 1).2.2.1
      (by decide),
   (C3_drop_desyncs_features_target
      [("a", Col.numeric [some 1, none]), ("t", Col.object [some "x", some "y"])]
      "t" "drop" ["a"]
      ⟨[("a", Col.numeric [some 1, none])], Col.object [some "x", some "y"]⟩
      ⟨[("a", Col.numeric [some 1])], Col.object [some "x", some "y"]⟩ 1).2.2.2
      (by decide) (by decide)⟩

/-- C3 counterexample to the claim as stated: after splitting a 2-row table,
the impute step with `'drop'` leaves the feature table with 1 row while the
target series still has 2 entries, so the equal-row-count invariant is not
preserved by every subsequent preprocessing operation. -/
theorem C3_counterexample :
    identify_target [("a", Col.numeric [some 1, none]),
      ("t", Col.object [some "x", some "y"])] = "t" ∧
    separate_features_target
        [("a", Col.numeric [some 1, none]),
         ("t", Col.object [some "x", some "y"])] "t" =
      ([("a", Col.numeric [some 1, none])], Col.object [some "x", some "y"]) ∧
    step_impute "drop" ["a"]
        ⟨[("a", Col.numeric [some 1, none])],
         Col.object [some "x", some "y"]⟩ =
      .ok ⟨[("a", Col.numeric [some 1])], Col.object [some "x", some "y"]⟩ ∧
    DF.nrows [("a", Col.numeric [some 1])] = 1 ∧
    Col.size (Col.object [some "x", some "y"]) = 2 :=
  ⟨rfl, rfl, rfl, rfl, rfl⟩

/-- C6 (amended): in `create_engineered_features`, each derived feature
whose minimum numeric-column count is not met is skipped without error:
with fewer than two numeric columns the table is returned unchanged, with
exactly two only the ratio feature is appended, and with exactly three the
ratio and mean features are appended but `Learning_Index` (threshold four)
is skipped; the ratio feature's denominator `x + 1e-6` is non-zero for
every row whose second-column value is not exactly `-1e-6`; at the value
`-1e-6` itself the epsilon guard fails and the denominator is zero. -/
theorem C6_engineered_guards (X : DF) (i : Nat) (b : ℚ) :
    ((numericColsOf X).length < 2 → create_engineered_features X = X) ∧
    (2 ≤ (numericColsOf X).length → (numericColsOf X).length < 3 →
      create_engineered_features X =
        X ++ [("Efficiency_Score", Col.numeric (effCol X))]) ∧
    (3 ≤ (numericColsOf X).length → (numericColsOf X).length < 4 →
      create_engineered_features X =
        X ++ [("Efficiency_Score", Col.numeric (effCol X))] ++
          [("Engagement_Score", Col.numeric (engagementCol X))]) ∧
    ((sndNumVals X)[i]? = some (some b) → b ≠ -eps →
      (efficiencyDenominators X)[i]? = some (some (effDenom b)) ∧
      effDenom b ≠ 0) := by
  refine ⟨?_, ?_, ?_, ?_⟩
  · intro h
    simp only [create_engineered_features]
    rw [if_neg (by omega), if_neg (by omega), if_neg (by omega)]
  · intro h2 h3
    simp only [create_engineered_features]
    rw [if_pos h2, if_neg (by omega), if_neg (by omega)]
  · intro h3 h4
    simp only [create_engineered_features]
    rw [if_neg (show ¬4 ≤ (numericColsOf X).length by omega), if_pos h3,
      if_pos (show 2 ≤ (numericColsOf X).length by omega)]
  · intro hb hne
    constructor
    · rw [efficiencyDenominators, List.getElem?_map, hb]
      rfl
    · rw [effDenom]
      intro h0
      exact hne (by linarith)

theorem C6_witness :
    create_engineered_features [("u", Col.numeric [some 3]),
      ("c", Col.object [some "a"])] =
      [("u", Col.numeric [some 3]), ("c", Col.object [some "a"])] ∧
    create_engineered_features [("u", Col.numeric [some 1]),
      ("v", Col.numeric [some 2]), ("w", Col.numeric [some 3])] =
      [("u", Col.numeric [some 1]), ("v", Col.numeric [some 2]),
        ("w", Col.numeric [some 3])] ++
        [("Efficiency_Score", Col.numeric (effCol
          [("u", Col.numeric [some 1]), ("v", Col.numeric [some 2]),
            ("w", Col.numeric [some 3])]))] ++
        [("Engagement_Score", Col.numeric (engagementCol
          [("u", Col.numeric [some 1]), ("v", Col.numeric [some 2]),
            ("w", Col.numeric [some 3])]))] ∧
    (efficiencyDenominators [("a", Col.numeric [some 1]),
      ("b", Col.numeric [some 5])])[0]? = some (some (effDenom 5)) ∧
    effDenom 5 ≠ 0 :=
  ⟨(C6_engineered_guards [("u", Col.numeric [some 3]),
      ("c", Col.object [some "a"])] 0 0).1 (by decide),
   (C6_engineered_guards [("u", Col.numeric [some 1]),
      ("v", Col.numeric [some 2]), ("w", Col.numeric [some 3])] 0 0).2.2.1
      (by decide) (by decide),
   (C6_engineered_guards [("a", Col.numeric [some 1]),
      ("b", Col.numeric [some 5])] 0 5).2.2.2 rfl (by norm_num [eps])⟩

/-- C6 counterexample to the claim as stated: a processed table with two
numeric columns whose second column holds the value `-1e-6`; the engineered
ratio's denominator for that row is exactly zero, so the additive epsilon
does not guarantee a non-zero denominator for every row. -/
theorem C6_counterexample :
    2 ≤ (numericColsOf [("a", Col.numeric [some 1]),
      ("b", Col.numeric [some (-(1 / 1000000))])]).length ∧
    efficiencyDenominators [("a", Col.numeric [some 1]),
      ("b", Col.numeric [some (-(1 / 1000000))])] = [some 0] := by
  constructor
  · decide
  · norm_num [efficiencyDenominators, sndNumVals, numericColsOf, effDenom,
      eps, List.filterMap]

theorem qsum_map_mul_right (xs : List ℚ) (f : ℚ → ℚ) (a : ℚ) :
    (xs.map fun x => f x * a).sum = (xs.map f).sum * a := by
  induction xs with
  | nil => simp
  | cons y t ih =>
      simp only [List.map_cons, List.sum_cons, ih]
      ring

theorem qsum_map_sub_const (xs : List ℚ) (c : ℚ) :
    (xs.map fun x => x - c).sum = xs.sum - xs.length * c := by
  induction xs with
  | nil => simp
  | cons y t ih =>
      simp only [List.map_cons, List.sum_cons, ih, List.length_cons]
      push_cast
      ring

/-- C7 (amended): applying the freshly fitted standard scaler to its own
(`fillna(0)`-completed) fit column yields, for every numeric column of
*non-zero variance*, exactly mean 0 and population variance 1 (hence
standard deviation 1) in exact arithmetic.  For a constant column sklearn
substitutes scale 1 and the transformed column is identically zero, with
standard deviation 0, not 1 (see the counterexample). -/
theorem C7_standardize_mean0_var1 (vs : List (Option ℚ)) (s : ℚ)
    (hne : vs ≠ []) (hs : isSkScale (fillna0 vs) s)
    (hvar : popVar (fillna0 vs) ≠ 0) :
    colMean (fitTransformCol (fillna0 vs) s) = 0 ∧
    popVar (fitTransformCol (fillna0 vs) s) = 1 := by
  set xs := fillna0 vs with hxs
  have hlen : xs.length ≠ 0 := by
    rw [hxs, fillna0, List.length_map]
    exact fun h => hne (List.eq_nil_of_length_eq_zero h)
  have hlenQ : (xs.length : ℚ) ≠ 0 := Nat.cast_ne_zero.2 hlen
  rw [isSkScale, if_neg hvar] at hs
  obtain ⟨hs0, hs2⟩ := hs
  have hsne : s ≠ 0 := by
    intro h
    rw [h] at hs2
    exact hvar (by rw [← hs2]; ring)
  have hcentered : (xs.map fun x => x - colMean xs).sum = 0 := by
    rw [qsum_map_sub_const, colMean]
    field_simp
  have hmean : colMean (fitTransformCol xs s) = 0 := by
    rw [fitTransformCol, colMean]
    simp only [div_eq_mul_inv]
    rw [qsum_map_mul_right xs (fun x => x - colMean xs) s⁻¹, ← div_eq_mul_inv,
      show (xs.map fun x => x - colMean xs) = xs.map fun x => x - colMean xs
        from rfl, hcentered]
    simp
  refine ⟨hmean, ?_⟩
  rw [popVar, hmean]
  simp only [sub_zero, fitTransformCol, List.map_map, List.length_map]
  rw [List.map_congr_left (fun x _ => show ((fun y => y ^ 2) ∘
      fun x => (x - colMean xs) / s) x = (x - colMean xs) ^ 2 * (s ^ 2)⁻¹ by
    simp only [Function.comp_apply, div_pow]
    ring)]
  rw [qsum_map_mul_right xs (fun x => (x - colMean xs) ^ 2) ((s ^ 2)⁻¹)]
  have hsum : (xs.map fun x => (x - colMean xs) ^ 2).sum =
      popVar xs * xs.length := by
    rw [popVar]
    field_simp
  rw [hsum, hs2]
  field_simp

theorem C7_witness :
    colMean (fitTransformCol (fillna0 [some 0, some 2]) 1) = 0 ∧
    popVar (fitTransformCol (fillna0 [some 0, some 2]) 1) = 1 :=
  C7_standardize_mean0_var1 [some 0, some 2] 1 (by decide)
    (by unfold isSkScale; norm_num [popVar, colMean, fillna0])
    (by norm_num [popVar, colMean, fillna0])

/-- C7 counterexample to the claim as stated: a constant numeric column.
sklearn's `StandardScaler` replaces the zero scale by 1, so the fitted
scaler applied to its own fit data gives the all-zero column, whose
standard deviation is 0 — not within any tolerance below 1 of 1. -/
theorem C7_counterexample :
    isSkScale (fillna0 [some 5, some 5]) 1 ∧
    fitTransformCol (fillna0 [some 5, some 5]) 1 = [0, 0] ∧
    popVar (fitTransformCol (fillna0 [some 5, some 5]) 1) = 0 := by
  refine ⟨?_, ?_, ?_⟩
  · unfold isSkScale
    norm_num [popVar, colMean, fillna0]
  · norm_num [fitTransformCol, colMean, fillna0]
  · norm_num [popVar, colMean, fitTransformCol, fillna0]

/-- C9 (amended): `load_data` fails with the file-not-found error iff the
path does not exist (and then the preprocessor state is untouched); for an
existing path holding a CSV-parseable table (at least one column), it fails
with the empty-dataset error iff the table has zero rows, and otherwise
returns the table — but on the empty-dataset failure the table has already
been stored in `self.df`, so that failure does leave pipeline state behind
(see the counterexample). -/
theorem C9_load_error_cases (fs : String → Option DF) (path : String)
    (s : PrepState) (t : DF) :
    ((load_data fs path s).2 = .error .fileNotFound ↔ fs path = none) ∧
    (fs path = none → (load_data fs path s).1 = s) ∧
    (fs path = some t → 0 < t.ncols →
      (((load_data fs path s).2 = .error .emptyDataset ↔ t.nrows = 0) ∧
       (load_data fs path s).1.df = some t ∧
       (t.nrows ≠ 0 → (load_data fs path s).2 = .ok t))) := by
  refine ⟨?_, ?_, ?_⟩
  · cases hfs : fs path with
    | none => simp [load_data, hfs]
    | some u =>
        simp only [load_data, hfs]
        by_cases he : u.isEmpty
        · simp [he]
        · simp [he]
  · intro hfs
    simp [load_data, hfs]
  · intro hfs hc
    simp only [load_data, hfs]
    have hcol : ¬t.ncols = 0 := by omega
    by_cases hn : t.nrows = 0
    · have he : t.isEmpty = true := by simp [DF.isEmpty, hn]
      simp [he, hn]
    · have he : t.isEmpty = false := by simp [DF.isEmpty, hn, hcol]
      simp [he, hn]

theorem C9_witness :
    ((load_data
        (fun p => if p = "data.csv" then some [("A", Col.numeric [some 1])]
          else none) "data.csv" ⟨none⟩).2 = .error .emptyDataset ↔
      DF.nrows [("A", Col.numeric [some 1])] = 0) ∧
    (load_data
        (fun p => if p = "data.csv" then some [("A", Col.numeric [some 1])]
          else none) "data.csv" ⟨none⟩).1.df =
      some [("A", Col.numeric [some 1])] ∧
    (DF.nrows [("A", Col.numeric [some 1])] ≠ 0 →
      (load_data
        (fun p => if p = "data.csv" then some [("A", Col.numeric [some 1])]
          else none) "data.csv" ⟨none⟩).2 = .ok [("A", Col.numeric [some 1])]) :=
  (C9_load_error_cases
    (fun p => if p = "data.csv" then some [("A", Col.numeric [some 1])]
      else none) "data.csv" ⟨none⟩ [("A", Col.numeric [some 1])]).2.2
    rfl (by decide)

/-- C9 counterexample to the claim as stated: loading an existing file that
parses to a zero-row table raises the empty-dataset error, yet the
preprocessor state now holds that empty table (`self.df` is assigned on
line 65, before the check on line 67) — pipeline state *is* established on
this failure. -/
theorem C9_counterexample :
    (load_data
        (fun p => if p = "data.csv" then some [("A", Col.numeric [])]
          else none) "data.csv" ⟨none⟩).2 = .error .emptyDataset ∧
    (load_data
        (fun p => if p = "data.csv" then some [("A", Col.numeric [])]
          else none) "data.csv" ⟨none⟩).1 =
      { df := some [("A", Col.numeric [])] } ∧
    (⟨none⟩ : PrepState).df = none :=
  ⟨rfl, rfl, rfl⟩
